import Mathlib

/-!
Verification of the cache client mirror (src/src/cache-client.ts).

The TypeScript source implements a client-side mirror of a shared cache:

* a process-wide registry `CACHES : Map<string, Cache>` with `Cache.open`,
* a per-mirror local map `_local_cache : Map<string, CacheEntry>`,
* operations `get`, `set`, the internal `_cached`, and an inbound message
  listener dispatching on the message type string
  (cases "entry", "expiring", and a default that only logs).

Shallow embedding conventions:

* JavaScript `Map` insertion-ordered maps become association lists
  `List (String × β)` with first-match lookup (`alookup`) and in-place
  first-match rebinding (`aset`); `Map.set` on an absent key appends.
* JavaScript object identity (records are mutated in place and shared by
  reference) is modelled by an `id : Nat` field allocated from a per-state
  counter: two views of "the same object" carry the same `id`, and an
  in-place field mutation is a rebinding of the map entry that keeps `id`.
* Messages posted to the channel via `_send` are accumulated in order in a
  `sent` log; inbound messages are applied by `onMessage`.
* The wire message is the raw three-field record `{type, key, value?}`
  of cache-proto, so that the default (unknown-type) branch of the switch
  is expressible.
-/

set_option autoImplicit false

namespace CacheClient

/-- Wire message shape: a record `{type, key, value?}` with a string
discriminant, as exchanged on the channel (cache-proto). An absent
`value` field is `none`. -/
structure RawMessage (C : Type) where
  type : String
  key : String
  value : Option C
  deriving DecidableEq, Repr

/-- A cache entry `{key, value, requested}` as exposed through `Cache.get`.
The extra `id` field models JavaScript object identity: entries are shared
by reference in the source, and `id` is preserved by in-place mutation. -/
structure CacheEntry (C : Type) where
  key : String
  value : Option C
  requested : Bool
  id : Nat
  deriving DecidableEq, Repr

/-- First-match lookup in an association list, as `Map.get`. -/
def alookup {E : Type} : List (String × E) → String → Option E
  | [], _ => none
  | (k, v) :: rest, key => if k = key then some v else alookup rest key

/-- Rebind the first binding of `key` in place, leaving the list unchanged
when `key` is absent. This models an in-place mutation of the object the
map already holds under `key`. -/
def aset {E : Type} : List (String × E) → String → E → List (String × E)
  | [], _, _ => []
  | (k, v) :: rest, key, e =>
      if k = key then (k, e) :: rest else (k, v) :: aset rest key e

/-- State of one `Cache` mirror: the `_local_cache` map, the allocation
counter backing object identity, and the ordered log of messages posted
through `_send`. -/
structure CacheState (C : Type) where
  local_cache : List (String × CacheEntry C)
  nextId : Nat
  sent : List (RawMessage C)
  deriving DecidableEq, Repr

/-- A mirror as freshly constructed: empty local cache, nothing sent. -/
def initState (C : Type) : CacheState C :=
  { local_cache := [], nextId := 0, sent := [] }

/-- `Cache._cached`: return the entry for `key`, creating
`{key, value: undefined, requested: false}` and inserting it when absent.
Returns the entry together with the updated state. -/
def cached {C : Type} (st : CacheState C) (key : String) :
    CacheEntry C × CacheState C :=
  match alookup st.local_cache key with
  | some ent => (ent, st)
  | none =>
      let ent : CacheEntry C :=
        { key := key, value := none, requested := false, id := st.nextId }
      (ent,
        { st with
            local_cache := st.local_cache ++ [(key, ent)],
            nextId := st.nextId + 1 })

/-- `Cache.get`: fetch the cached entry via `_cached`; when its `requested`
flag is false, send `{type: "fetch", key}` and set the flag in place. -/
def get {C : Type} (st : CacheState C) (key : String) :
    CacheEntry C × CacheState C :=
  let p := cached st key
  let ent := p.1
  let st1 := p.2
  if ent.requested = false then
    let ent2 := { ent with requested := true }
    (ent2,
      { st1 with
          local_cache := aset st1.local_cache key ent2,
          sent := st1.sent ++ [{ type := "fetch", key := key, value := none }] })
  else
    (ent, st1)

/-- `Cache.set`: fetch the cached entry via `_cached`, assign `value` in
place, send `{type: "entry", key, value}`, and return the entry. -/
def set {C : Type} (st : CacheState C) (key : String) (value : C) :
    CacheEntry C × CacheState C :=
  let p := cached st key
  let ent := p.1
  let st1 := p.2
  let ent2 := { ent with value := some value }
  (ent2,
    { st1 with
        local_cache := aset st1.local_cache key ent2,
        sent := st1.sent ++ [{ type := "entry", key := key, value := some value }] })

/-- The inbound-message listener installed in the `Cache` constructor:
`case "entry"` overwrites the value of an existing entry in place,
`case "expiring"` clears it in place (never deleting the map binding),
and `case "fetch"` falls through to the default, which only logs. -/
def onMessage {C : Type} (st : CacheState C) (m : RawMessage C) :
    CacheState C :=
  if m.type = "entry" then
    match alookup st.local_cache m.key with
    | some ent =>
        { st with
            local_cache := aset st.local_cache m.key { ent with value := m.value } }
    | none => st
  else if m.type = "expiring" then
    match alookup st.local_cache m.key with
    | some ent =>
        { st with
            local_cache := aset st.local_cache m.key { ent with value := none } }
    | none => st
  else
    st

/-- One operation on a mirror, covering the three ways its state mutates:
a `get` call, a `set` call, or handling one inbound message. -/
inductive Op (C : Type) where
  | opGet (key : String)
  | opSet (key : String) (value : C)
  | recv (m : RawMessage C)
  deriving DecidableEq, Repr

/-- Apply one operation to a mirror state, keeping only the state. -/
def applyOp {C : Type} (st : CacheState C) : Op C → CacheState C
  | .opGet key => (get st key).2
  | .opSet key value => (set st key value).2
  | .recv m => onMessage st m

/-- Iterate `get st key` a number of times, keeping only the state. -/
def getN {C : Type} (st : CacheState C) (key : String) : Nat → CacheState C
  | 0 => st
  | n + 1 => getN (get st key).2 key n

/-- Number of `{type: "fetch", key}` messages for `key` in a sent log. -/
def fetchCount {C : Type} (sent : List (RawMessage C)) (key : String) : Nat :=
  (sent.filter (fun m => m.type == "fetch" && m.key == key)).length

/-- The process-wide registry `CACHES : Map<string, Cache>`. Mirror object
identity is modelled by a `Nat` allocated from `nextMirror`. -/
structure Registry where
  caches : List (String × Nat)
  nextMirror : Nat
  deriving DecidableEq, Repr

/-- `Cache.open`: return the registered mirror for `name` when one exists
(returning early, registry untouched); otherwise construct a new mirror,
register it under `name`, and return it. -/
def openCache (r : Registry) (name : String) : Nat × Registry :=
  match alookup r.caches name with
  | some cache => (cache, r)
  | none =>
      let cache := r.nextMirror
      (cache,
        { caches := r.caches ++ [(name, cache)],
          nextMirror := r.nextMirror + 1 })

section Lemmas

variable {C E : Type}

theorem alookup_aset_eq {l : List (String × E)} {k : String} {e : E}
    (e' : E) (h : alookup l k = some e) :
    alookup (aset l k e') k = some e' := by
  induction l with
  | nil => simp [alookup] at h
  | cons p rest ih =>
      obtain ⟨pk, pv⟩ := p
      by_cases hk : pk = k
      · simp [alookup, aset, hk]
      · simp [alookup, aset, hk] at h ⊢
        exact ih h

theorem alookup_aset_ne {l : List (String × E)} {k k' : String}
    (e' : E) (h : k ≠ k') :
    alookup (aset l k e') k' = alookup l k' := by
  induction l with
  | nil => simp [aset]
  | cons p rest ih =>
      obtain ⟨pk, pv⟩ := p
      by_cases hk : pk = k
      · subst hk
        simp [alookup, aset, h]
      · simp [alookup, aset, hk]
        split <;> simp [ih]

theorem alookup_append_some {l l2 : List (String × E)} {k : String} {e : E}
    (h : alookup l k = some e) :
    alookup (l ++ l2) k = some e := by
  induction l with
  | nil => simp [alookup] at h
  | cons p rest ih =>
      obtain ⟨pk, pv⟩ := p
      by_cases hk : pk = k
      · simp [alookup, hk] at h ⊢
        exact h
      · simp [alookup, hk] at h ⊢
        exact ih h

theorem alookup_append_none {l l2 : List (String × E)} {k : String}
    (h : alookup l k = none) :
    alookup (l ++ l2) k = alookup l2 k := by
  induction l with
  | nil => simp [alookup]
  | cons p rest ih =>
      obtain ⟨pk, pv⟩ := p
      by_cases hk : pk = k
      · simp [alookup, hk] at h
      · simp [alookup, hk] at h ⊢
        exact ih h

theorem alookup_singleton_eq (k : String) (e : E) :
    alookup [(k, e)] k = some e := by
  simp [alookup]

/-- After `_cached`, the returned entry is bound to `key` in the map. -/
theorem cached_mem (st : CacheState C) (key : String) :
    alookup (cached st key).2.local_cache key = some (cached st key).1 := by
  unfold cached
  cases h : alookup st.local_cache key with
  | some ent => simp [h]
  | none =>
      simp [h, alookup_append_none h, alookup]

/-- `_cached` preserves every existing binding exactly. -/
theorem cached_preserves {st : CacheState C} {k : String} {e : CacheEntry C}
    (key : String) (h : alookup st.local_cache k = some e) :
    alookup (cached st key).2.local_cache k = some e := by
  unfold cached
  cases hk : alookup st.local_cache key with
  | some ent => simp [hk, h]
  | none =>
      simpa [hk] using alookup_append_some h

/-- When the key is already bound, `_cached` returns the bound entry and
leaves the state untouched. -/
theorem cached_of_some {st : CacheState C} {key : String} {e : CacheEntry C}
    (h : alookup st.local_cache key = some e) :
    cached st key = (e, st) := by
  simp [cached, h]

/-- When the key is absent, `_cached` allocates a fresh default entry and
appends it. -/
theorem cached_of_none {st : CacheState C} {key : String}
    (h : alookup st.local_cache key = none) :
    cached st key =
      ({ key := key, value := none, requested := false, id := st.nextId },
        { st with
            local_cache := st.local_cache ++
              [(key, { key := key, value := none, requested := false,
                       id := st.nextId })],
            nextId := st.nextId + 1 }) := by
  simp [cached, h]

/-- `_cached` never posts a message. -/
theorem cached_sent (st : CacheState C) (key : String) :
    (cached st key).2.sent = st.sent := by
  unfold cached
  cases h : alookup st.local_cache key <;> simp

/-- The `requested` flag currently recorded for `key` (false when absent). -/
def requestedAt (st : CacheState C) (key : String) : Bool :=
  match alookup st.local_cache key with
  | some e => e.requested
  | none => false

/-- The entry `get` returns is bound to `key` in the resulting state. -/
theorem get_mem (st : CacheState C) (key : String) :
    alookup (get st key).2.local_cache key = some (get st key).1 := by
  cases hl : alookup st.local_cache key with
  | some e =>
      by_cases hr : e.requested = false
      · simp [get, cached_of_some hl, hr, alookup_aset_eq _ hl]
      · simp [get, cached_of_some hl, hr, hl]
  | none =>
      have hm := cached_mem st key
      rw [cached_of_none hl] at hm
      simp [get, cached_of_none hl, alookup_aset_eq _ hm]

/-- The entry `get` returns always has its `requested` flag set. -/
theorem get_requested (st : CacheState C) (key : String) :
    (get st key).1.requested = true := by
  cases hl : alookup st.local_cache key with
  | some e =>
      by_cases hr : e.requested = false
      · simp [get, cached_of_some hl, hr]
      · simp only [Bool.not_eq_false] at hr
        simp [get, cached_of_some hl, hr]
  | none =>
      simp [get, cached_of_none hl]

/-- On a key whose entry is already requested, `get` returns that entry and
changes nothing. -/
theorem get_of_requested {st : CacheState C} {key : String} {e : CacheEntry C}
    (h : alookup st.local_cache key = some e) (he : e.requested = true) :
    get st key = (e, st) := by
  simp [get, cached_of_some h, he]

/-- On a key not yet requested, `get` posts exactly one fetch for it and
latches the flag. -/
theorem get_of_not_requested {st : CacheState C} {key : String}
    (h : requestedAt st key = false) :
    (get st key).2.sent = st.sent ++ [⟨"fetch", key, none⟩] ∧
      requestedAt (get st key).2 key = true := by
  cases hl : alookup st.local_cache key with
  | some e =>
      simp only [requestedAt, hl] at h
      constructor
      · simp [get, cached_of_some hl, h]
      · simp only [requestedAt]
        rw [show alookup (get st key).2.local_cache key = some (get st key).1
              from get_mem st key]
        exact get_requested st key
  | none =>
      constructor
      · simp [get, cached_of_none hl]
      · simp only [requestedAt]
        rw [show alookup (get st key).2.local_cache key = some (get st key).1
              from get_mem st key]
        exact get_requested st key

/-- Once the flag is latched, any number of further `get` calls on the same
key leave the state exactly as it is. -/
theorem getN_of_requested {st : CacheState C} {key : String}
    (h : requestedAt st key = true) :
    ∀ n, getN st key n = st := by
  intro n
  induction n with
  | zero => rfl
  | succ m ih =>
      cases hl : alookup st.local_cache key with
      | some e =>
          simp only [requestedAt, hl] at h
          simpa [getN, get_of_requested hl h] using ih
      | none =>
          simp only [requestedAt, hl] at h
          exact absurd h (by simp)

/-- On a bound key, `get` returns the bound entry with at most its
`requested` flag changed: value, id and key are those of the binding. -/
theorem get_fst_fields {st : CacheState C} {key : String} {e : CacheEntry C}
    (h : alookup st.local_cache key = some e) :
    (get st key).1.value = e.value ∧ (get st key).1.id = e.id ∧
      (get st key).1.key = e.key := by
  by_cases hr : e.requested = false <;> simp [get, cached_of_some h, hr]

/-- The entry `set` returns carries the assigned value. -/
theorem set_fst_value (st : CacheState C) (key : String) (v : C) :
    ((set st key v).1).value = some v := by
  simp [set]

/-- The entry `set` returns is bound to `key` in the resulting state. -/
theorem set_mem (st : CacheState C) (key : String) (v : C) :
    alookup (set st key v).2.local_cache key = some (set st key v).1 := by
  simp only [set]
  exact alookup_aset_eq _ (cached_mem st key)

/-- `set` posts exactly one entry message, and nothing else. -/
theorem set_sent (st : CacheState C) (key : String) (v : C) :
    (set st key v).2.sent = st.sent ++ [⟨"entry", key, some v⟩] := by
  simp [set, cached_sent]

end Lemmas

/-- C3: `open(name)` is idempotent against the process-wide registry. A
first call (name unregistered) allocates the next mirror and bumps the
allocator; after any call the returned mirror is registered under `name`,
and a repeated call returns the identical mirror with the registry
(allocator included) unchanged. -/
theorem claim_C3_open_idempotent (r : Registry) (name : String) :
    (alookup r.caches name = none →
        (openCache r name).1 = r.nextMirror ∧
        (openCache r name).2.nextMirror = r.nextMirror + 1) ∧
    alookup (openCache r name).2.caches name = some (openCache r name).1 ∧
    openCache (openCache r name).2 name =
      ((openCache r name).1, (openCache r name).2) := by
  cases hl : alookup r.caches name with
  | some c =>
      refine ⟨fun hn => by simp [hl] at hn, ?_, ?_⟩
      · simp [openCache, hl]
      · simp [openCache, hl]
  | none =>
      have hm : alookup (r.caches ++ [(name, r.nextMirror)]) name =
          some r.nextMirror := by
        rw [alookup_append_none hl]
        simp [alookup]
      refine ⟨fun _ => ⟨by simp [openCache, hl], by simp [openCache, hl]⟩, ?_, ?_⟩
      · simp [openCache, hl, hm]
      · simp [openCache, hl, hm]

/-- C3 witness at a concrete registry and name. -/
theorem claim_C3_open_idempotent_witness :
    (openCache (Registry.mk [] 0) "settings").1 = 0 ∧
    (openCache (Registry.mk [] 0) "settings").2.nextMirror = 0 + 1 ∧
    alookup (openCache (Registry.mk [] 0) "settings").2.caches "settings" =
      some (openCache (Registry.mk [] 0) "settings").1 ∧
    openCache (openCache (Registry.mk [] 0) "settings").2 "settings" =
      ((openCache (Registry.mk [] 0) "settings").1,
        (openCache (Registry.mk [] 0) "settings").2) :=
  ⟨((claim_C3_open_idempotent (Registry.mk [] 0) "settings").1 (by rfl)).1,
    ((claim_C3_open_idempotent (Registry.mk [] 0) "settings").1 (by rfl)).2,
    (claim_C3_open_idempotent (Registry.mk [] 0) "settings").2.1,
    (claim_C3_open_idempotent (Registry.mk [] 0) "settings").2.2⟩

/-- C4: `set(key, v)` assigns `v` to the returned record before returning,
binds that record under `key`, posts exactly one `Entry{key, v}` message,
and an immediately following `get(key)` observes `value = v` with no
inbound message in between. -/
theorem claim_C4_set_optimistic_write (C : Type) (st : CacheState C)
    (key : String) (v : C) :
    ((set st key v).1).value = some v ∧
    alookup (set st key v).2.local_cache key = some (set st key v).1 ∧
    (set st key v).2.sent = st.sent ++ [⟨"entry", key, some v⟩] ∧
    (get (set st key v).2 key).1.value = some v := by
  refine ⟨set_fst_value st key v, set_mem st key v, set_sent st key v, ?_⟩
  have h := (get_fst_fields (set_mem st key v)).1
  rw [h, set_fst_value]

/-- C5: an inbound `Entry{key, value}` for an existing record overwrites
its value in place: the binding keeps the same object (same id), same key
and same requested flag, with only the value replaced by the message
value. -/
theorem claim_C5_entry_overwrites_in_place (C : Type) (st : CacheState C)
    (key : String) (v : C) (ent : CacheEntry C)
    (h : alookup st.local_cache key = some ent) :
    alookup (onMessage st ⟨"entry", key, some v⟩).local_cache key =
      some { ent with value := some v } := by
  simp [onMessage, h, alookup_aset_eq _ h]

/-- C5 witness at a concrete one-entry state. -/
theorem claim_C5_entry_overwrites_in_place_witness :
    alookup (onMessage
        (CacheState.mk [("k", CacheEntry.mk "k" none true 0)] 1 [])
        ⟨"entry", "k", some (7 : Nat)⟩).local_cache "k" =
      some (CacheEntry.mk "k" (some 7) true 0) :=
  claim_C5_entry_overwrites_in_place Nat
    (CacheState.mk [("k", CacheEntry.mk "k" none true 0)] 1 []) "k" 7
    (CacheEntry.mk "k" none true 0) (by rfl)

/-- C6: an inbound `Expiring{key}` for an existing record clears its value
in place while keeping the binding: same object (same id), same key, and
the requested flag exactly as it was — never reset. A later `get(key)`
still returns the same object. -/
theorem claim_C6_expiring_clears_value_keeps_record (C : Type)
    (st : CacheState C) (key : String) (ent : CacheEntry C)
    (h : alookup st.local_cache key = some ent) :
    alookup (onMessage st ⟨"expiring", key, none⟩).local_cache key =
      some { ent with value := none } ∧
    (get (onMessage st ⟨"expiring", key, none⟩) key).1.id = ent.id := by
  have h1 : alookup (onMessage st ⟨"expiring", key, none⟩).local_cache key =
      some { ent with value := none } := by
    simp [onMessage, h, alookup_aset_eq _ h]
  exact ⟨h1, (get_fst_fields h1).2.1⟩

/-- C6 witness at a concrete one-entry state. -/
theorem claim_C6_expiring_clears_value_keeps_record_witness :
    alookup (onMessage
        (CacheState.mk [("k", CacheEntry.mk "k" (some (5 : Nat)) true 0)] 1 [])
        ⟨"expiring", "k", none⟩).local_cache "k" =
      some (CacheEntry.mk "k" (none : Option Nat) true 0) ∧
    (get (onMessage
        (CacheState.mk [("k", CacheEntry.mk "k" (some (5 : Nat)) true 0)] 1 [])
        ⟨"expiring", "k", none⟩) "k").1.id =
      (CacheEntry.mk "k" (some (5 : Nat)) true 0).id :=
  claim_C6_expiring_clears_value_keeps_record Nat
    (CacheState.mk [("k", CacheEntry.mk "k" (some (5 : Nat)) true 0)] 1 []) "k"
    (CacheEntry.mk "k" (some (5 : Nat)) true 0) (by rfl)

/-- C7: an inbound `Entry{key, value}` for a key with no local record is a
strict no-op: the whole mirror state is unchanged. -/
theorem claim_C7_entry_unknown_key_noop (C : Type) (st : CacheState C)
    (key : String) (v : C) (h : alookup st.local_cache key = none) :
    onMessage st ⟨"entry", key, some v⟩ = st := by
  simp [onMessage, h]

/-- C7 witness at a concrete state whose map lacks the key. -/
theorem claim_C7_entry_unknown_key_noop_witness :
    onMessage (CacheState.mk [("a", CacheEntry.mk "a" none true 0)] 1 [])
        ⟨"entry", "b", some (3 : Nat)⟩ =
      CacheState.mk [("a", CacheEntry.mk "a" none true 0)] 1 [] :=
  claim_C7_entry_unknown_key_noop Nat
    (CacheState.mk [("a", CacheEntry.mk "a" none true 0)] 1 []) "b" 3 (by rfl)

/-- C8: any inbound message whose type is neither "entry" nor "expiring" —
an inbound fetch included — leaves the whole mirror state unchanged (it is
only logged). -/
theorem claim_C8_unknown_message_noop (C : Type) (st : CacheState C)
    (m : RawMessage C) (h1 : m.type ≠ "entry") (h2 : m.type ≠ "expiring") :
    onMessage st m = st := by
  simp [onMessage, h1, h2]

/-- C1: once a key is bound in a mirror, no operation — a `get`, a `set`,
or handling any inbound message — removes that key or rebinds it to a
different record object: afterwards the key is still bound to a record
with the same identity (id) and the same key field, only the other fields
possibly mutated. -/
theorem claim_C1_record_identity (C : Type) (st : CacheState C) (op : Op C)
    (k : String) (e : CacheEntry C) (h : alookup st.local_cache k = some e) :
    ∃ e', alookup (applyOp st op).local_cache k = some e' ∧
      e'.id = e.id ∧ e'.key = e.key := by
  cases op with
  | opGet key =>
      by_cases hk : key = k
      · subst hk
        by_cases hr : e.requested = false
        · exact ⟨{ e with requested := true },
            by simp [applyOp, get, cached_of_some h, hr, alookup_aset_eq _ h],
            rfl, rfl⟩
        · exact ⟨e, by simp [applyOp, get, cached_of_some h, hr, h], rfl, rfl⟩
      · have h1 : alookup (cached st key).2.local_cache k = some e :=
          cached_preserves key h
        by_cases hr : (cached st key).1.requested = false
        · exact ⟨e, by simp [applyOp, get, hr, alookup_aset_ne _ hk, h1],
            rfl, rfl⟩
        · exact ⟨e, by simp [applyOp, get, hr, h1], rfl, rfl⟩
  | opSet key v =>
      by_cases hk : key = k
      · subst hk
        exact ⟨{ e with value := some v },
          by simp [applyOp, set, cached_of_some h, alookup_aset_eq _ h],
          rfl, rfl⟩
      · have h1 : alookup (cached st key).2.local_cache k = some e :=
          cached_preserves key h
        exact ⟨e, by simp [applyOp, set, alookup_aset_ne _ hk, h1], rfl, rfl⟩
  | recv m =>
      by_cases ht : m.type = "entry"
      · by_cases hk : m.key = k
        · exact ⟨{ e with value := m.value },
            by simp [applyOp, onMessage, ht, hk, h, alookup_aset_eq _ h],
            rfl, rfl⟩
        · cases hl : alookup st.local_cache m.key with
          | some ent =>
              exact ⟨e,
                by simp [applyOp, onMessage, ht, hl, alookup_aset_ne _ hk, h],
                rfl, rfl⟩
          | none => exact ⟨e, by simp [applyOp, onMessage, ht, hl, h], rfl, rfl⟩
      · by_cases ht2 : m.type = "expiring"
        · by_cases hk : m.key = k
          · exact ⟨{ e with value := none },
              by simp [applyOp, onMessage, ht, ht2, hk, h, alookup_aset_eq _ h],
              rfl, rfl⟩
          · cases hl : alookup st.local_cache m.key with
            | some ent =>
                exact ⟨e,
                  by simp [applyOp, onMessage, ht, ht2, hl,
                    alookup_aset_ne _ hk, h],
                  rfl, rfl⟩
            | none =>
                exact ⟨e, by simp [applyOp, onMessage, ht, ht2, hl, h],
                  rfl, rfl⟩
        · exact ⟨e, by simp [applyOp, onMessage, ht, ht2, h], rfl, rfl⟩

/-- C1 witness: an expiring message against a concrete one-entry state. -/
theorem claim_C1_record_identity_witness :
    ∃ e', alookup (applyOp
        (CacheState.mk [("k", CacheEntry.mk "k" (some (2 : Nat)) true 0)] 1 [])
        (Op.recv ⟨"expiring", "k", none⟩)).local_cache "k" = some e' ∧
      e'.id = (CacheEntry.mk "k" (some (2 : Nat)) true 0).id ∧
      e'.key = (CacheEntry.mk "k" (some (2 : Nat)) true 0).key :=
  claim_C1_record_identity Nat
    (CacheState.mk [("k", CacheEntry.mk "k" (some (2 : Nat)) true 0)] 1 [])
    (Op.recv ⟨"expiring", "k", none⟩) "k"
    (CacheEntry.mk "k" (some (2 : Nat)) true 0) (by rfl)

/-- C2: starting from a state where `key` is not yet requested, N ≥ 1
consecutive `get(key)` calls post exactly one `Fetch{key}`: the first call
appends it and latches the requested flag, and every later call changes
nothing, so the whole sent log grows by exactly that one message. -/
theorem claim_C2_fetch_deduplication (C : Type) (st : CacheState C)
    (key : String) (n : Nat) (h : requestedAt st key = false) (hn : 1 ≤ n) :
    (getN st key n).sent = st.sent ++ [⟨"fetch", key, none⟩] ∧
    requestedAt (getN st key n) key = true ∧
    fetchCount (getN st key n).sent key = fetchCount st.sent key + 1 := by
  obtain ⟨m, rfl⟩ : ∃ m, n = m + 1 := ⟨n - 1, by omega⟩
  have h1 := get_of_not_requested h
  have h2 : getN st key (m + 1) = (get st key).2 := by
    simpa [getN] using getN_of_requested h1.2 m
  rw [h2, h1.1]
  refine ⟨rfl, h1.2, ?_⟩
  simp [fetchCount, List.filter_append]

/-- C2 witness: two `get` calls on a fresh mirror and a fresh key. -/
theorem claim_C2_fetch_deduplication_witness :
    (getN (initState Nat) "volume" 2).sent =
      (initState Nat).sent ++ [⟨"fetch", "volume", none⟩] ∧
    requestedAt (getN (initState Nat) "volume" 2) "volume" = true ∧
    fetchCount (getN (initState Nat) "volume" 2).sent "volume" =
      fetchCount (initState Nat).sent "volume" + 1 :=
  claim_C2_fetch_deduplication Nat (initState Nat) "volume" 2
    (by rfl) (by omega)

/-- C9: `get(key)` returns a record synchronously: when the key is absent,
`_cached` first creates the record with value absent, requested false and a
fresh identity; after any `get` the returned record is the one bound under
the key, and an immediately repeated `get` returns the identical record
and leaves the state untouched. -/
theorem claim_C9_get_synchronous_and_stable (C : Type) (st : CacheState C)
    (key : String) :
    (alookup st.local_cache key = none →
        (cached st key).1 =
          { key := key, value := none, requested := false, id := st.nextId }) ∧
    alookup (get st key).2.local_cache key = some (get st key).1 ∧
    get (get st key).2 key = get st key := by
  refine ⟨fun h => by rw [cached_of_none h], get_mem st key, ?_⟩
  simpa using get_of_requested (get_mem st key) (get_requested st key)

/-- C9 witness at a fresh mirror and a concrete key. -/
theorem claim_C9_get_synchronous_and_stable_witness :
    (cached (initState Nat) "theme").1 = CacheEntry.mk "theme" none false 0 ∧
    alookup (get (initState Nat) "theme").2.local_cache "theme" =
      some (get (initState Nat) "theme").1 ∧
    get (get (initState Nat) "theme").2 "theme" =
      get (initState Nat) "theme" :=
  ⟨(claim_C9_get_synchronous_and_stable Nat (initState Nat) "theme").1 (by rfl),
    (claim_C9_get_synchronous_and_stable Nat (initState Nat) "theme").2.1,
    (claim_C9_get_synchronous_and_stable Nat (initState Nat) "theme").2.2⟩

/-- C10: `set(key, v)` posts exactly one entry message and no fetch, and
never touches the requested flag: an existing record keeps its flag, a
record created by `set` has requested false, and consequently the first
`get(key)` after a `set` on a previously absent key still posts a
`Fetch{key}` even though a value is already present locally. -/
theorem claim_C10_set_never_fetches (C : Type) (st : CacheState C)
    (key : String) (v : C) :
    (set st key v).2.sent = st.sent ++ [⟨"entry", key, some v⟩] ∧
    (∀ e, alookup st.local_cache key = some e →
        alookup (set st key v).2.local_cache key =
          some { e with value := some v }) ∧
    (alookup st.local_cache key = none →
        alookup (set st key v).2.local_cache key =
          some { key := key, value := some v, requested := false,
                 id := st.nextId } ∧
        (get (set st key v).2 key).2.sent =
          st.sent ++ [⟨"entry", key, some v⟩, ⟨"fetch", key, none⟩]) := by
  refine ⟨set_sent st key v, ?_, ?_⟩
  · intro e he
    simp [set, cached_of_some he, alookup_aset_eq _ he]
  · intro hn
    have hm : alookup (st.local_cache ++
        [(key, ({ key := key, value := none, requested := false,
                  id := st.nextId } : CacheEntry C))]) key =
        some { key := key, value := none, requested := false,
               id := st.nextId } := by
      rw [alookup_append_none hn]
      simp [alookup]
    have h1 : alookup (set st key v).2.local_cache key =
        some { key := key, value := some v, requested := false,
               id := st.nextId } := by
      simpa [set, cached_of_none hn] using
        alookup_aset_eq
          ({ key := key, value := some v, requested := false,
             id := st.nextId } : CacheEntry C) hm
    refine ⟨h1, ?_⟩
    have hreq : requestedAt (set st key v).2 key = false := by
      simp [requestedAt, h1]
    rw [(get_of_not_requested hreq).1, set_sent]
    simp

/-- C10 witness: a `set` then a `get` on a fresh mirror and key. -/
theorem claim_C10_set_never_fetches_witness :
    (set (initState Nat) "theme" 4).2.sent =
      (initState Nat).sent ++ [⟨"entry", "theme", some 4⟩] ∧
    alookup (set (initState Nat) "theme" 4).2.local_cache "theme" =
      some (CacheEntry.mk "theme" (some 4) false 0) ∧
    (get (set (initState Nat) "theme" 4).2 "theme").2.sent =
      (initState Nat).sent ++
        [⟨"entry", "theme", some 4⟩, ⟨"fetch", "theme", none⟩] :=
  ⟨(claim_C10_set_never_fetches Nat (initState Nat) "theme" 4).1,
    ((claim_C10_set_never_fetches Nat (initState Nat) "theme" 4).2.2 (by rfl)).1,
    ((claim_C10_set_never_fetches Nat (initState Nat) "theme" 4).2.2 (by rfl)).2⟩

/-- C8 witness: an inbound fetch message at a concrete state. -/
theorem claim_C8_unknown_message_noop_witness :
    onMessage (CacheState.mk [("a", CacheEntry.mk "a" (some (1 : Nat)) true 0)] 1 [])
        ⟨"fetch", "a", none⟩ =
      CacheState.mk [("a", CacheEntry.mk "a" (some (1 : Nat)) true 0)] 1 [] :=
  claim_C8_unknown_message_noop Nat
    (CacheState.mk [("a", CacheEntry.mk "a" (some (1 : Nat)) true 0)] 1 [])
    ⟨"fetch", "a", none⟩ (by decide) (by decide)

end CacheClient
